import Mathlib

/-!
Verification of the `Peer` session-layer state machine of node-lightning
(`peer.ts`): lifecycle states, capability negotiation, steady-state message
dispatch, and the ordering of observable effects (emitted events, socket
writes and liveness-monitor calls).

The `Peer` class is embedded as a pure transition system.  Each socket
callback of the source becomes a function from the peer's mutable fields to
the updated fields together with the ordered list of effects it performs
(event emissions, socket writes, socket end, PingPongState calls).  The
external collaborators (`MessageFactory.deserialize`, the init-message
factory, message serialization) are opaque parameters collected in `Config`.
Exceptions thrown by `deserialize` or by failed assertions are modelled with
an `Option Err` component, caught by the model of `_onSocketData` exactly
where the source has its try/catch.
-/

namespace NodeLightning

/-- One decrypted frame delivered by the noise transport, as a list of octets. -/
abbrev Bytes := List Nat

/-- Errors that can be thrown while handling peer traffic: the failed
`assert.ok(this.state === PeerState.ready, ...)` of `sendMessage`, the failed
`assert.ok(m instanceof InitMessage, ...)` of `_processPeerInitMessage`
(which also covers the property access on a falsy deserialize result), and
errors thrown inside the external `MessageFactory.deserialize`. -/
inductive Err where
  | peerNotReady
  | expectingInit
  | external (code : Nat)
deriving DecidableEq, Repr

/-- The capability record (`InitMessage`).  Its wire contents are opaque to
the Peer; only its identity matters here. -/
structure InitMsg where
  flags : Nat
deriving DecidableEq, Repr

/-- A decoded wire message: an `InitMessage` or a message of some other kind. -/
inductive WireMessage where
  | init (m : InitMsg)
  | other (kind : Nat)
deriving DecidableEq, Repr

/-- Outcome of `MessageFactory.deserialize(raw)`: it may throw, return a
falsy value, or return a message. -/
inductive DeserResult where
  | throws (e : Err)
  | noMsg
  | msg (m : WireMessage)
deriving DecidableEq, Repr

/-- Modelled from the spec: the source file `peer-state` defining the
`PeerState` enum is not among the sources; the spec's data model lists the
states as Pending, AwaitingPeerInit, Ready and Closed, so `closed` is taken
from the spec.  The `Peer` source itself references only `pending`,
`awaiting_peer_init` and `ready`. -/
inductive PeerState where
  | pending
  | awaiting_peer_init
  | ready
  | closed
deriving DecidableEq, Repr

/-- The events the Peer EventEmitter can emit (`open` and `end` renamed to
avoid Lean keywords). -/
inductive Event where
  | openEvt
  | ready
  | message (m : WireMessage)
  | rawmessage (raw : Bytes)
  | sending (buf : Bytes)
  | error (e : Err)
  | close
  | endEvt
deriving DecidableEq, Repr

/-- An observable effect performed by a Peer callback, in program order:
an event emission, a socket write, ending the socket, or a call into the
PingPongState liveness monitor. -/
inductive Effect where
  | emit (e : Event)
  | socketWrite (buf : Bytes)
  | socketEnd
  | pingPongStart
  | pingPongOnMessage (m : WireMessage)
  | pingPongOnDisconnecting
deriving DecidableEq, Repr

/-- The opaque collaborators the Peer is parameterized by:
`deser` is `MessageFactory.deserialize`, `factoryInit` the result of the
caller-supplied `initMessageFactory`, and `ser` the `serialize()` method of
messages. -/
structure Config where
  deser : Bytes → DeserResult
  factoryInit : InitMsg
  ser : WireMessage → Bytes

/-- The mutable fields of the `Peer` class that the claims concern. -/
structure Peer where
  state : PeerState
  messageCounter : Nat
  remoteInit : Option InitMsg
  localInit : Option InitMsg
deriving DecidableEq, Repr

/-- The `Peer` constructor: state starts at `pending`, counter at 0, no init
messages captured yet. -/
def Peer.mkInitial : Peer :=
  { state := PeerState.pending
    messageCounter := 0
    remoteInit := none
    localInit := none }

/-- `Peer._processPeerInitMessage(raw)`: deserialize the frame; any thrown
error propagates; a falsy result or a non-`InitMessage` result fails the
`assert.ok(m instanceof InitMessage)` (for a falsy result the logger's
property access can throw first, still an exception); on success the message
is stored in `remoteInit`, `pingPongState.start()` runs, the state becomes
`ready` and the `ready` event is emitted.  The third component is the
exception escaping to the caller, if any. -/
def processPeerInitMessage (cfg : Config) (p : Peer) (raw : Bytes) :
    Peer × List Effect × Option Err :=
  match cfg.deser raw with
  | DeserResult.throws e => (p, [], some e)
  | DeserResult.noMsg => (p, [], some Err.expectingInit)
  | DeserResult.msg (WireMessage.other _) => (p, [], some Err.expectingInit)
  | DeserResult.msg (WireMessage.init m) =>
      ({ p with remoteInit := some m, state := PeerState.ready },
       [Effect.pingPongStart, Effect.emit Event.ready], none)

/-- `Peer._processMessage(raw)`: increment `messageCounter` first, emit
`rawmessage`, then deserialize; a thrown error escapes after the increment
and the `rawmessage` emission; a falsy result ends the handler quietly; a
message is handed to `pingPongState.onMessage` and then emitted as
`message`. -/
def processMessage (cfg : Config) (p : Peer) (raw : Bytes) :
    Peer × List Effect × Option Err :=
  match cfg.deser raw with
  | DeserResult.throws e =>
      ({ p with messageCounter := p.messageCounter + 1 },
       [Effect.emit (Event.rawmessage raw)], some e)
  | DeserResult.noMsg =>
      ({ p with messageCounter := p.messageCounter + 1 },
       [Effect.emit (Event.rawmessage raw)], none)
  | DeserResult.msg m =>
      ({ p with messageCounter := p.messageCounter + 1 },
       [Effect.emit (Event.rawmessage raw), Effect.pingPongOnMessage m,
        Effect.emit (Event.message m)], none)

/-- The try/catch of `Peer._onSocketData`: a caught exception ends the
socket and emits the `error` event, after whatever effects already ran. -/
def catchStep : Peer × List Effect × Option Err → Peer × List Effect
  | (p, effs, none) => (p, effs)
  | (p, effs, some e) =>
      (p, effs ++ [Effect.socketEnd, Effect.emit (Event.error e)])

/-- `Peer._onSocketData(raw)`: frames are routed to
`_processPeerInitMessage` exactly when the state is `awaiting_peer_init`,
and to `_processMessage` in every other state. -/
def onSocketData (cfg : Config) (p : Peer) (raw : Bytes) : Peer × List Effect :=
  if p.state = PeerState.awaiting_peer_init then
    catchStep (processPeerInitMessage cfg p raw)
  else
    catchStep (processMessage cfg p raw)

/-- `Peer._sendInitMessage()`: build the local init message with the
factory, capture it in `localInit`, emit `sending` with the serialized
payload and write the payload to the socket. -/
def sendInitMessage (cfg : Config) (p : Peer) : Peer × List Effect :=
  ({ p with localInit := some cfg.factoryInit },
   [Effect.emit (Event.sending (cfg.ser (WireMessage.init cfg.factoryInit))),
    Effect.socketWrite (cfg.ser (WireMessage.init cfg.factoryInit))])

/-- `Peer._onSocketReady()`: move to `awaiting_peer_init`, emit `open`,
then send the local init message. -/
def onSocketReady (cfg : Config) (p : Peer) : Peer × List Effect :=
  ((sendInitMessage cfg { p with state := PeerState.awaiting_peer_init }).1,
   Effect.emit Event.openEvt ::
     (sendInitMessage cfg { p with state := PeerState.awaiting_peer_init }).2)

/-- `Peer._onSocketEnd()`: emit `end`, nothing else. -/
def onSocketEnd (p : Peer) : Peer × List Effect :=
  (p, [Effect.emit Event.endEvt])

/-- `Peer._onSocketClose()`: `pingPongState` is always set by the
constructor, so `onDisconnecting` runs, then `close` is emitted.  No state
field changes. -/
def onSocketClose (p : Peer) : Peer × List Effect :=
  (p, [Effect.pingPongOnDisconnecting, Effect.emit Event.close])

/-- `Peer._onSocketError(err)`: emit the received error as the `error`
event; nothing else happens. -/
def onSocketError (p : Peer) (e : Err) : Peer × List Effect :=
  (p, [Effect.emit (Event.error e)])

/-- `Peer.sendMessage(m)`: `assert.ok(this.state === PeerState.ready, ...)`
throws `Peer is not ready` in any other state, before anything is written;
otherwise serialize, emit `sending`, write to the socket. -/
def sendMessage (cfg : Config) (p : Peer) (m : WireMessage) :
    Peer × List Effect × Option Err :=
  if p.state = PeerState.ready then
    (p, [Effect.emit (Event.sending (cfg.ser m)), Effect.socketWrite (cfg.ser m)],
     none)
  else
    (p, [], some Err.peerNotReady)

/-- `Peer.disconnect()`: calls `this.socket.end()` and nothing else. -/
def disconnect (p : Peer) : Peer × List Effect :=
  (p, [Effect.socketEnd])

/-- The signals the noise socket can deliver to the Peer's bound handlers. -/
inductive SocketSig where
  | sigReady
  | sigData (raw : Bytes)
  | sigEnd
  | sigClose
  | sigError (e : Err)
deriving DecidableEq, Repr

/-- Dispatch one socket signal to the handler the Peer bound for it in
`connect`. -/
def step (cfg : Config) (p : Peer) : SocketSig → Peer × List Effect
  | SocketSig.sigReady => onSocketReady cfg p
  | SocketSig.sigData raw => onSocketData cfg p raw
  | SocketSig.sigEnd => onSocketEnd p
  | SocketSig.sigClose => onSocketClose p
  | SocketSig.sigError e => onSocketError p e

/-- Run the Peer over a sequence of socket signals, concatenating the
effects in order. -/
def run (cfg : Config) (p : Peer) : List SocketSig → Peer × List Effect
  | [] => (p, [])
  | s :: rest =>
      ((run cfg (step cfg p s).1 rest).1,
       (step cfg p s).2 ++ (run cfg (step cfg p s).1 rest).2)

/-- The emitted events of an effect trace, in order. -/
def eventsOf (effs : List Effect) : List Event :=
  effs.filterMap fun eff =>
    match eff with
    | Effect.emit e => some e
    | _ => none

/-- Is this event a `message` or `rawmessage` event? -/
def Event.isMsgEvent : Event → Bool
  | Event.message _ => true
  | Event.rawmessage _ => true
  | _ => false

/-- Is this event the `ready` event? -/
def Event.isReady : Event → Bool
  | Event.ready => true
  | _ => false

/-- No `message` or `rawmessage` event occurs before a `ready` event, given
whether `ready` was already seen earlier. -/
def okEvents (readySeen : Bool) : List Event → Bool
  | [] => true
  | e :: rest =>
      if e.isMsgEvent then readySeen && okEvents readySeen rest
      else okEvents (readySeen || e.isReady) rest

/-- Whether a `ready` event has been seen after this trace, given whether
one was seen before it. -/
def seenReady (b : Bool) (evs : List Event) : Bool :=
  b || evs.any Event.isReady

/-- Guard for one signal: a `data` signal is not allowed while the state is
still `pending`; every other combination is allowed. -/
def dataOkay : SocketSig → PeerState → Bool
  | SocketSig.sigData _, PeerState.pending => false
  | _, _ => true

/-- The trace hypothesis matching real transport behaviour: the socket
never delivers a `data` signal while the Peer is still `pending` (the noise
socket emits `data` only after its `ready`). -/
def noDataWhilePending (cfg : Config) (p : Peer) : List SocketSig → Bool
  | [] => true
  | s :: rest =>
      dataOkay s p.state && noDataWhilePending cfg (step cfg p s).1 rest

/-- Concrete collaborators used by witnesses and counterexamples: frame
`[0]` decodes to an init message, `[2]` to a non-init message, `[3]` makes
the decoder throw, and every other frame decodes to a falsy result. -/
def cfg1 : Config :=
  { deser := fun raw =>
      if raw = [0] then DeserResult.msg (WireMessage.init { flags := 1 })
      else if raw = [2] then DeserResult.msg (WireMessage.other 5)
      else if raw = [3] then DeserResult.throws (Err.external 7)
      else DeserResult.noMsg
    factoryInit := { flags := 0 }
    ser := fun _ => [9] }

/-- A Peer awaiting the remote init message. -/
def pAwait : Peer :=
  { Peer.mkInitial with state := PeerState.awaiting_peer_init }

/-- A Peer in the ready state. -/
def pReady : Peer :=
  { Peer.mkInitial with state := PeerState.ready }

/-- C2: while `awaiting_peer_init`, a frame that deserializes to an
`InitMessage` stores it in `remoteInit`, starts the PingPongState, moves
the state to `ready`, and the complete effect trace is
`[pingPongStart, emit ready]` — in particular the `ready` event is emitted
exactly once. -/
theorem init_success_transitions_ready (cfg : Config) (p : Peer) (raw : Bytes)
    (m : InitMsg) (hs : p.state = PeerState.awaiting_peer_init)
    (hd : cfg.deser raw = DeserResult.msg (WireMessage.init m)) :
    onSocketData cfg p raw =
      ({ p with remoteInit := some m, state := PeerState.ready },
       [Effect.pingPongStart, Effect.emit Event.ready]) ∧
    (eventsOf (onSocketData cfg p raw).2).count Event.ready = 1 := by
  have h : onSocketData cfg p raw =
      ({ p with remoteInit := some m, state := PeerState.ready },
       [Effect.pingPongStart, Effect.emit Event.ready]) := by
    simp [onSocketData, hs, processPeerInitMessage, hd, catchStep]
  refine ⟨h, ?_⟩
  rw [h]
  rfl

/-- Witness for `init_success_transitions_ready` at `cfg1`, `pAwait` and
the frame `[0]`. -/
theorem init_success_transitions_ready_witness :
    onSocketData cfg1 pAwait [0] =
      ({ pAwait with remoteInit := some { flags := 1 }, state := PeerState.ready },
       [Effect.pingPongStart, Effect.emit Event.ready]) ∧
    (eventsOf (onSocketData cfg1 pAwait [0]).2).count Event.ready = 1 :=
  init_success_transitions_ready cfg1 pAwait [0] { flags := 1 } rfl rfl

/-- C3: a frame received while `ready` whose deserialization throws yields,
in this order, the `rawmessage` event carrying the undecoded bytes, then
the socket end, then the `error` event; the counter is still incremented. -/
theorem ready_decode_throw_terminates (cfg : Config) (p : Peer) (raw : Bytes)
    (e : Err) (hs : p.state = PeerState.ready)
    (hd : cfg.deser raw = DeserResult.throws e) :
    onSocketData cfg p raw =
      ({ p with messageCounter := p.messageCounter + 1 },
       [Effect.emit (Event.rawmessage raw), Effect.socketEnd,
        Effect.emit (Event.error e)]) := by
  simp [onSocketData, hs, processMessage, hd, catchStep]

/-- Witness for `ready_decode_throw_terminates` at `cfg1`, `pReady` and the
throwing frame `[3]`. -/
theorem ready_decode_throw_terminates_witness :
    onSocketData cfg1 pReady [3] =
      ({ pReady with messageCounter := pReady.messageCounter + 1 },
       [Effect.emit (Event.rawmessage [3]), Effect.socketEnd,
        Effect.emit (Event.error (Err.external 7))]) :=
  ready_decode_throw_terminates cfg1 pReady [3] (Err.external 7) rfl rfl

/-- C5: for every frame processed while `ready`, the `rawmessage` event is
the first effect; and when deserialization yields a message, the
PingPongState `onMessage` call strictly precedes the `message` event. -/
theorem ready_frame_effect_order (cfg : Config) (p : Peer) (raw : Bytes)
    (hs : p.state = PeerState.ready) :
    (∃ rest, (onSocketData cfg p raw).2 =
        Effect.emit (Event.rawmessage raw) :: rest) ∧
    ∀ m, cfg.deser raw = DeserResult.msg m →
      (onSocketData cfg p raw).2 =
        [Effect.emit (Event.rawmessage raw), Effect.pingPongOnMessage m,
         Effect.emit (Event.message m)] := by
  constructor
  · rcases hdes : cfg.deser raw with e | _ | m
    · exact ⟨[Effect.socketEnd, Effect.emit (Event.error e)],
        by simp [onSocketData, hs, processMessage, hdes, catchStep]⟩
    · exact ⟨[], by simp [onSocketData, hs, processMessage, hdes, catchStep]⟩
    · exact ⟨[Effect.pingPongOnMessage m, Effect.emit (Event.message m)],
        by simp [onSocketData, hs, processMessage, hdes, catchStep]⟩
  · intro m hm
    simp [onSocketData, hs, processMessage, hm, catchStep]

/-- Witness for `ready_frame_effect_order` at `cfg1`, `pReady` and the
frame `[0]`, whose deserialization yields a message. -/
theorem ready_frame_effect_order_witness :
    (∃ rest, (onSocketData cfg1 pReady [0]).2 =
        Effect.emit (Event.rawmessage [0]) :: rest) ∧
    (onSocketData cfg1 pReady [0]).2 =
      [Effect.emit (Event.rawmessage [0]),
       Effect.pingPongOnMessage (WireMessage.init { flags := 1 }),
       Effect.emit (Event.message (WireMessage.init { flags := 1 }))] :=
  ⟨(ready_frame_effect_order cfg1 pReady [0] rfl).1,
   (ready_frame_effect_order cfg1 pReady [0] rfl).2
     (WireMessage.init { flags := 1 }) rfl⟩

/-- C8: `sendMessage` outside `ready` throws the `Peer is not ready`
assertion error with no effects (nothing written); in `ready` it emits
`sending` with the serialized bytes and then writes those bytes. -/
theorem sendMessage_contract (cfg : Config) (p : Peer) (m : WireMessage) :
    (p.state ≠ PeerState.ready →
      sendMessage cfg p m = (p, [], some Err.peerNotReady)) ∧
    (p.state = PeerState.ready →
      sendMessage cfg p m =
        (p, [Effect.emit (Event.sending (cfg.ser m)),
             Effect.socketWrite (cfg.ser m)], none)) := by
  constructor
  · intro h
    simp [sendMessage, h]
  · intro h
    simp [sendMessage, h]

/-- Witness for `sendMessage_contract`: the not-ready case at `pAwait` and
the ready case at `pReady`. -/
theorem sendMessage_contract_witness :
    sendMessage cfg1 pAwait (WireMessage.other 4) =
      (pAwait, [], some Err.peerNotReady) ∧
    sendMessage cfg1 pReady (WireMessage.other 4) =
      (pReady, [Effect.emit (Event.sending [9]), Effect.socketWrite [9]], none) :=
  ⟨(sendMessage_contract cfg1 pAwait (WireMessage.other 4)).1 (by decide),
   (sendMessage_contract cfg1 pReady (WireMessage.other 4)).2 rfl⟩

/-- C9: `disconnect` only ends the socket: the Peer fields are unchanged,
no event is emitted (so no `close` and no error), and a second call does
exactly the same again. -/
theorem disconnect_idempotent (p : Peer) :
    disconnect p = (p, [Effect.socketEnd]) ∧
    disconnect (disconnect p).1 = disconnect p ∧
    eventsOf (disconnect p).2 = [] :=
  ⟨rfl, rfl, rfl⟩

/-- C10: a frame received while `ready` for which deserialize returns a
falsy result increments the counter, emits only `rawmessage` (no `message`,
no `error`, no socket end, no liveness call) and leaves the state `ready`. -/
theorem falsy_deserialize_silent_drop (cfg : Config) (p : Peer) (raw : Bytes)
    (hs : p.state = PeerState.ready) (hd : cfg.deser raw = DeserResult.noMsg) :
    onSocketData cfg p raw =
      ({ p with messageCounter := p.messageCounter + 1 },
       [Effect.emit (Event.rawmessage raw)]) ∧
    (onSocketData cfg p raw).1.state = PeerState.ready := by
  have h : onSocketData cfg p raw =
      ({ p with messageCounter := p.messageCounter + 1 },
       [Effect.emit (Event.rawmessage raw)]) := by
    simp [onSocketData, hs, processMessage, hd, catchStep]
  refine ⟨h, ?_⟩
  rw [h]
  exact hs

/-- Witness for `falsy_deserialize_silent_drop` at `cfg1`, `pReady` and the
frame `[7]`, which deserializes to a falsy result. -/
theorem falsy_deserialize_silent_drop_witness :
    onSocketData cfg1 pReady [7] =
      ({ pReady with messageCounter := pReady.messageCounter + 1 },
       [Effect.emit (Event.rawmessage [7])]) ∧
    (onSocketData cfg1 pReady [7]).1.state = PeerState.ready :=
  falsy_deserialize_silent_drop cfg1 pReady [7] rfl rfl

/-- C4 counterexample: a data frame delivered in the initial `pending`
state — not a frame processed while `ready` — also increments
`messageCounter`, from 0 to 1. -/
theorem counter_increment_in_pending_cex :
    Peer.mkInitial.state = PeerState.pending ∧
    Peer.mkInitial.messageCounter = 0 ∧
    (onSocketData cfg1 Peer.mkInitial [7]).1.messageCounter = 1 :=
  ⟨rfl, rfl, rfl⟩

/-- C4 (amended): a frame processed while `ready` increments
`messageCounter` by exactly one whatever the deserialize outcome; a frame
processed while `awaiting_peer_init` leaves it unchanged, as do
`sendMessage`, `disconnect` and the ready/end/close/error socket handlers.
(A data frame delivered while still `pending` also increments it; see the
counterexample.) -/
theorem counter_increment_amended (cfg : Config) (p : Peer) (raw : Bytes)
    (m : WireMessage) (e : Err) :
    (p.state = PeerState.ready →
      (onSocketData cfg p raw).1.messageCounter = p.messageCounter + 1) ∧
    (p.state = PeerState.awaiting_peer_init →
      (onSocketData cfg p raw).1.messageCounter = p.messageCounter) ∧
    (onSocketReady cfg p).1.messageCounter = p.messageCounter ∧
    (onSocketEnd p).1.messageCounter = p.messageCounter ∧
    (onSocketClose p).1.messageCounter = p.messageCounter ∧
    (onSocketError p e).1.messageCounter = p.messageCounter ∧
    (sendMessage cfg p m).1.messageCounter = p.messageCounter ∧
    (disconnect p).1.messageCounter = p.messageCounter := by
  refine ⟨?_, ?_, ?_, rfl, rfl, rfl, ?_, rfl⟩
  · intro h
    rcases hdes : cfg.deser raw with e2 | _ | m2 <;>
      simp [onSocketData, h, processMessage, hdes, catchStep]
  · intro h
    rcases hdes : cfg.deser raw with e2 | _ | m2
    · simp [onSocketData, h, processPeerInitMessage, hdes, catchStep]
    · simp [onSocketData, h, processPeerInitMessage, hdes, catchStep]
    · rcases m2 with mi | k <;>
        simp [onSocketData, h, processPeerInitMessage, hdes, catchStep]
  · simp [onSocketReady, sendInitMessage]
  · by_cases h : p.state = PeerState.ready <;> simp [sendMessage, h]

/-- Witness for `counter_increment_amended`: the ready case at `pReady`
with a throwing frame, and the awaiting case at `pAwait` with a non-init
frame. -/
theorem counter_increment_amended_witness :
    (onSocketData cfg1 pReady [3]).1.messageCounter = pReady.messageCounter + 1 ∧
    (onSocketData cfg1 pAwait [2]).1.messageCounter = pAwait.messageCounter :=
  ⟨(counter_increment_amended cfg1 pReady [3] (WireMessage.other 4)
      Err.peerNotReady).1 rfl,
   (counter_increment_amended cfg1 pAwait [2] (WireMessage.other 4)
      Err.peerNotReady).2.1 rfl⟩

/-- C6 counterexample: after the transport reports an error to a ready
Peer, the state is still `ready` — not a closed state — and the only effect
is re-emitting the error: no liveness-monitor stop, no teardown. -/
theorem error_leaves_state_cex :
    (onSocketError pReady (Err.external 3)).1.state = PeerState.ready ∧
    PeerState.ready ≠ PeerState.closed ∧
    (onSocketError pReady (Err.external 3)).2 =
      [Effect.emit (Event.error (Err.external 3))] :=
  ⟨rfl, by decide, rfl⟩

/-- C6 (amended): no handler moves the Peer into a closed state: the error
handler only emits the `error` event, changing nothing else; the close
handler stops the liveness monitor (`onDisconnecting`) and emits `close`
without changing any field; `disconnect` only requests the socket end. -/
theorem teardown_handlers_amended (p : Peer) (e : Err) :
    onSocketError p e = (p, [Effect.emit (Event.error e)]) ∧
    onSocketClose p =
      (p, [Effect.pingPongOnDisconnecting, Effect.emit Event.close]) ∧
    disconnect p = (p, [Effect.socketEnd]) :=
  ⟨rfl, rfl, rfl⟩

/-- C7 counterexample: a frame that fails to decode as an init message
while `awaiting_peer_init` leaves the state at `awaiting_peer_init` — not a
closed state — and a later valid init frame still fires `ready`, so a
`ready` event occurs after the `error` event. -/
theorem bad_init_then_ready_cex :
    (onSocketData cfg1 pAwait [2]).1.state = PeerState.awaiting_peer_init ∧
    PeerState.awaiting_peer_init ≠ PeerState.closed ∧
    eventsOf (run cfg1 pAwait [SocketSig.sigData [2], SocketSig.sigData [0]]).2 =
      [Event.error Err.expectingInit, Event.ready] :=
  ⟨rfl, by decide, rfl⟩

/-- C7 (amended): while `awaiting_peer_init`, a frame that does not decode
to an `InitMessage` ends the socket and emits an `error` event; the Peer
fields, the state included, are unchanged, so the state stays
`awaiting_peer_init`. -/
theorem bad_init_ends_socket (cfg : Config) (p : Peer) (raw : Bytes)
    (hs : p.state = PeerState.awaiting_peer_init)
    (hbad : ∀ m, cfg.deser raw ≠ DeserResult.msg (WireMessage.init m)) :
    ∃ e, onSocketData cfg p raw =
      (p, [Effect.socketEnd, Effect.emit (Event.error e)]) := by
  rcases hdes : cfg.deser raw with e | _ | m
  · exact ⟨e, by simp [onSocketData, hs, processPeerInitMessage, hdes, catchStep]⟩
  · exact ⟨Err.expectingInit,
      by simp [onSocketData, hs, processPeerInitMessage, hdes, catchStep]⟩
  · rcases m with mi | k
    · exact absurd hdes (hbad mi)
    · exact ⟨Err.expectingInit,
        by simp [onSocketData, hs, processPeerInitMessage, hdes, catchStep]⟩

/-- Witness for `bad_init_ends_socket` at `cfg1`, `pAwait` and the non-init
frame `[2]`. -/
theorem bad_init_ends_socket_witness :
    ∃ e, onSocketData cfg1 pAwait [2] =
      (pAwait, [Effect.socketEnd, Effect.emit (Event.error e)]) :=
  bad_init_ends_socket cfg1 pAwait [2] rfl
    (fun m h => by
      rw [show cfg1.deser [2] = DeserResult.msg (WireMessage.other 5) from rfl] at h
      simp at h)

/-- `eventsOf` distributes over concatenation of effect traces. -/
theorem eventsOf_append (xs ys : List Effect) :
    eventsOf (xs ++ ys) = eventsOf xs ++ eventsOf ys := by
  simp [eventsOf]

/-- `seenReady` threads through a concatenation. -/
theorem seenReady_append (b : Bool) (xs ys : List Event) :
    seenReady b (xs ++ ys) = seenReady (seenReady b xs) ys := by
  simp [seenReady, List.any_append, Bool.or_assoc]

/-- `okEvents` over a concatenation: the first part must be fine, and the
second part is checked with the ready flag updated by the first part. -/
theorem okEvents_append (b : Bool) (xs ys : List Event) :
    okEvents b (xs ++ ys) = (okEvents b xs && okEvents (seenReady b xs) ys) := by
  induction xs generalizing b with
  | nil => simp [okEvents, seenReady]
  | cons e rest ih =>
      cases e <;>
        simp [okEvents, seenReady, Event.isMsgEvent, Event.isReady, ih,
          Bool.and_assoc]

/-- One socket signal preserves the dispatch invariant: the events it emits
contain no message/rawmessage before a ready (relative to whether ready was
already seen), the state is ready afterwards only if a ready event has been
seen, and the state never becomes closed — provided a data frame is never
delivered while the state is still pending. -/
theorem step_ok (cfg : Config) (p : Peer) (s : SocketSig) (b : Bool)
    (hb : p.state = PeerState.ready → b = true)
    (hc : p.state ≠ PeerState.closed)
    (hnd : ∀ raw, s = SocketSig.sigData raw → p.state ≠ PeerState.pending) :
    okEvents b (eventsOf (step cfg p s).2) = true ∧
    ((step cfg p s).1.state = PeerState.ready →
      seenReady b (eventsOf (step cfg p s).2) = true) ∧
    (step cfg p s).1.state ≠ PeerState.closed := by
  cases s with
  | sigReady =>
      refine ⟨?_, ?_, ?_⟩ <;>
        simp [step, onSocketReady, sendInitMessage, eventsOf, okEvents,
          Event.isMsgEvent, Event.isReady, seenReady]
  | sigEnd =>
      refine ⟨?_, ?_, hc⟩
      · simp [step, onSocketEnd, eventsOf, okEvents, Event.isMsgEvent,
          Event.isReady]
      · intro h
        simp [step, onSocketEnd, eventsOf, seenReady, Event.isReady, hb h]
  | sigClose =>
      refine ⟨?_, ?_, hc⟩
      · simp [step, onSocketClose, eventsOf, okEvents, Event.isMsgEvent,
          Event.isReady]
      · intro h
        simp [step, onSocketClose, eventsOf, seenReady, Event.isReady, hb h]
  | sigError e =>
      refine ⟨?_, ?_, hc⟩
      · simp [step, onSocketError, eventsOf, okEvents, Event.isMsgEvent,
          Event.isReady]
      · intro h
        simp [step, onSocketError, eventsOf, seenReady, Event.isReady, hb h]
  | sigData raw =>
      have hnp : p.state ≠ PeerState.pending := hnd raw rfl
      rcases hps : p.state with _ | _ | _ | _
      · exact absurd hps hnp
      · rcases hdes : cfg.deser raw with e | _ | m
        · refine ⟨?_, ?_, ?_⟩ <;>
            simp [step, onSocketData, hps, processPeerInitMessage, hdes,
              catchStep, eventsOf, okEvents, Event.isMsgEvent, Event.isReady,
              seenReady]
        · refine ⟨?_, ?_, ?_⟩ <;>
            simp [step, onSocketData, hps, processPeerInitMessage, hdes,
              catchStep, eventsOf, okEvents, Event.isMsgEvent, Event.isReady,
              seenReady]
        · rcases m with mi | k <;>
            · refine ⟨?_, ?_, ?_⟩ <;>
                simp [step, onSocketData, hps, processPeerInitMessage, hdes,
                  catchStep, eventsOf, okEvents, Event.isMsgEvent,
                  Event.isReady, seenReady]
      · have hbt : b = true := hb hps
        subst hbt
        rcases hdes : cfg.deser raw with e | _ | m <;>
          · refine ⟨?_, ?_, ?_⟩ <;>
              simp [step, onSocketData, hps, processMessage, hdes, catchStep,
                eventsOf, okEvents, Event.isMsgEvent, Event.isReady, seenReady]
      · exact absurd hps hc

/-- Running any signal sequence from a state satisfying the invariant keeps
every message/rawmessage event after a ready event, provided no data frame
is delivered while the state is still pending. -/
theorem run_ok (cfg : Config) (sigs : List SocketSig) (p : Peer) (b : Bool)
    (hb : p.state = PeerState.ready → b = true)
    (hc : p.state ≠ PeerState.closed)
    (hnd : noDataWhilePending cfg p sigs = true) :
    okEvents b (eventsOf (run cfg p sigs).2) = true ∧
    ((run cfg p sigs).1.state = PeerState.ready →
      seenReady b (eventsOf (run cfg p sigs).2) = true) ∧
    (run cfg p sigs).1.state ≠ PeerState.closed := by
  induction sigs generalizing p b with
  | nil =>
      refine ⟨rfl, ?_, hc⟩
      intro h
      simpa [run, eventsOf, seenReady] using hb h
  | cons s rest ih =>
      rw [noDataWhilePending, Bool.and_eq_true] at hnd
      obtain ⟨hnd1, hnd2⟩ := hnd
      have hpend : ∀ raw, s = SocketSig.sigData raw → p.state ≠ PeerState.pending := by
        intro raw hsig hp
        rw [hsig, hp] at hnd1
        exact Bool.noConfusion hnd1
      obtain ⟨hok1, hready1, hc1⟩ := step_ok cfg p s b hb hc hpend
      obtain ⟨hok2, hready2, hc2⟩ :=
        ih (step cfg p s).1 (seenReady b (eventsOf (step cfg p s).2)) hready1
          hc1 hnd2
      refine ⟨?_, ?_, hc2⟩
      · rw [show (run cfg p (s :: rest)).2 =
            (step cfg p s).2 ++ (run cfg (step cfg p s).1 rest).2 from rfl,
          eventsOf_append, okEvents_append, Bool.and_eq_true]
        exact ⟨hok1, hok2⟩
      · intro h
        rw [show (run cfg p (s :: rest)).2 =
            (step cfg p s).2 ++ (run cfg (step cfg p s).1 rest).2 from rfl,
          eventsOf_append, seenReady_append]
        exact hready2 h

/-- C1 counterexample: a data frame delivered while the Peer is still in
its initial pending state produces a rawmessage event, in a trace that
contains no ready event at all. -/
theorem rawmessage_in_pending_cex :
    Peer.mkInitial.state = PeerState.pending ∧
    eventsOf (onSocketData cfg1 Peer.mkInitial [7]).2 = [Event.rawmessage [7]] ∧
    okEvents false
      (eventsOf (run cfg1 Peer.mkInitial [SocketSig.sigData [7]]).2) = false :=
  ⟨rfl, rfl, rfl⟩

/-- C1 (amended): a frame delivered while `awaiting_peer_init` never
produces a message or rawmessage event; and, in every trace from the
freshly constructed Peer in which the transport delivers no data frame
while the state is still pending, no message or rawmessage event is emitted
before a ready event has been emitted. -/
theorem no_message_before_ready (cfg : Config) (p : Peer) (raw : Bytes)
    (sigs : List SocketSig)
    (hs : p.state = PeerState.awaiting_peer_init)
    (hnd : noDataWhilePending cfg Peer.mkInitial sigs = true) :
    (eventsOf (onSocketData cfg p raw).2).all (fun e => !e.isMsgEvent) = true ∧
    okEvents false (eventsOf (run cfg Peer.mkInitial sigs).2) = true := by
  constructor
  · rcases hdes : cfg.deser raw with e | _ | m
    · simp [onSocketData, hs, processPeerInitMessage, hdes, catchStep,
        eventsOf, Event.isMsgEvent]
    · simp [onSocketData, hs, processPeerInitMessage, hdes, catchStep,
        eventsOf, Event.isMsgEvent]
    · rcases m with mi | k <;>
        simp [onSocketData, hs, processPeerInitMessage, hdes, catchStep,
          eventsOf, Event.isMsgEvent]
  · exact (run_ok cfg sigs Peer.mkInitial false
      (by simp [Peer.mkInitial]) (by simp [Peer.mkInitial]) hnd).1

/-- Witness for `no_message_before_ready`: the awaiting case at `pAwait`
with the non-init frame `[2]`, and a full well-behaved trace — socket
ready, a valid init frame, then a steady-state frame. -/
theorem no_message_before_ready_witness :
    (eventsOf (onSocketData cfg1 pAwait [2]).2).all (fun e => !e.isMsgEvent) = true ∧
    okEvents false (eventsOf (run cfg1 Peer.mkInitial
      [SocketSig.sigReady, SocketSig.sigData [0], SocketSig.sigData [7]]).2) = true :=
  no_message_before_ready cfg1 pAwait [2]
    [SocketSig.sigReady, SocketSig.sigData [0], SocketSig.sigData [7]] rfl rfl

end NodeLightning
